import Mathlib

/-
  Verification development for the ghcrawler worker loop and request lifecycle.

  The source files embedded here are:
  - lib/crawler (the Crawler class: per-request pipeline orchestration),
  - the Processor class (document transform and link/queue side effects),
  - the CrawlerService / CrawlerLoop supervisor.

  Asynchronous (promise-based) code is embedded as pure functions that return
  the mutated Request together with the list of external service calls
  (lock, queue, store operations) made during the stage, in call order.
  External collaborators (queue broker, lock service, fetcher, store, the
  link-header parsing library) are represented by oracle parameters giving
  their outcome; the events record that the call was issued.

  The Request class itself (request.js) is not among the provided source
  files; its small data-holder methods are modelled from the specification
  (section 3 of the spec) and are marked as such in their doc comments.
-/

namespace Ghcrawler

/-- JS truthiness of a possibly-absent string (undefined and the empty
string are falsy). -/
def truthy : Option String → Bool
  | none => false
  | some s => !s.data.isEmpty

/-- Split a character list on a separator character (the split method of
JS strings, for one-character separators). -/
def splitChars (sep : Char) : List Char → List (List Char)
  | [] => [[]]
  | c :: rest =>
    let r := splitChars sep rest
    if c = sep then [] :: r
    else
      match r with
      | [] => [[c]]
      | g :: gs => (c :: g) :: gs

/-- String split on a one-character separator. -/
def splitOnChar (s : String) (sep : Char) : List String :=
  (splitChars sep s.data).map String.mk

/-- Lower-case a string (toLowerCase). -/
def lowerStr (s : String) : String :=
  String.mk (s.data.map Char.toLower)

/-- Does s start with p (the startsWith method of JS strings)? -/
def startsWithStr (s p : String) : Bool :=
  s.data.take p.data.length == p.data

/-- Traversal policy attached to a Request.  The policy object is an
external collaborator; its decisions are represented as plain fields. -/
structure Policy where
  pname : String := "default"
  shouldProcessB : Bool := true
  shouldSaveB : Bool := true
deriving DecidableEq, Repr

/-- policy.shouldProcess(request, version): decision abstracted as a field. -/
def Policy.shouldProcess (p : Policy) (_version : Nat) : Bool :=
  p.shouldProcessB

/-- The relation descriptor carried in request.context.relation. -/
structure Relation where
  origin : String := ""
  rname : String := ""
  rkind : String := ""
deriving DecidableEq, Repr

/-- request.context: parent qualifier and optional relation descriptor. -/
structure Context where
  qualifier : Option String := none
  relation : Option Relation := none
deriving DecidableEq, Repr

/-- Target of a link: a single URN or an ordered list of URNs. -/
inductive LinkTarget where
  | one (urn : String)
  | many (urns : List String)
deriving DecidableEq, Repr

/-- A link value: kind (self, siblings, resource, collection, relation)
and target. -/
structure LinkValue where
  kind : String
  target : LinkTarget
deriving DecidableEq, Repr

/-- document metadata, the JS object stored at the document key named
with a leading underscore followed by the word metadata. -/
structure Metadata where
  mtype : Option String := none
  murl : Option String := none
  fetchedAt : Option String := none
  etag : Option String := none
  headerLink : Option String := none
  links : List (String × LinkValue) := []
  version : Option Nat := none
deriving DecidableEq, Repr

/-- One element of a collection document. -/
structure Element where
  eurl : Option String := none
  eid : Option Nat := none
deriving DecidableEq, Repr

/-- A document: metadata (possibly not yet attached) plus, for wrapped
array payloads, the list of elements. -/
structure Document where
  mdata : Option Metadata := none
  elements : List Element := []
deriving DecidableEq, Repr

/-- HTTP-ish response headers used by the crawler. -/
structure Headers where
  etag : Option String := none
  link : Option String := none
deriving DecidableEq, Repr

/-- A fetcher response: headers plus the metadata template the store may
carry on the response. -/
structure Response where
  headers : Headers := {}
  metadataTemplate : Option Metadata := none
deriving DecidableEq, Repr

/-- Modelled from the spec: the Request class is not among the provided
sources.  The process-control mode a Request can be marked with: skip
(markSkip) or requeue (markRequeue). -/
inductive RMode where
  | skip
  | requeue
deriving DecidableEq, Repr

/-- The in-flight traversal unit (spec section 3).  Transient fields
(lock, promises, document, response, upsert result, meta, mode) start
unset. -/
structure Request where
  rtype : Option String := none
  url : Option String := none
  context : Option Context := none
  policy : Policy := {}
  attemptCount : Option Nat := none
  mode : Option RMode := none
  outcome : Option String := none
  message : Option String := none
  meta : List (String × Nat) := []
  promises : Nat := 0
  lock : Option String := none
  document : Option Document := none
  response : Option Response := none
  upsert : Bool := false
  delayMs : Option Nat := none
  collectionType : Option String := none
deriving DecidableEq, Repr

/-- Modelled from the spec: Request constructor.  new Request(type, url,
context) carries type, url and context; every transient field starts
unset (spec section 3). -/
def Request.create (t : Option String) (u : Option String) (c : Option Context) : Request :=
  { rtype := t, url := u, context := c }

/-- Modelled from the spec: request.markSkip(outcome, message) records the
skip decision and outcome/message on the Request. -/
def Request.markSkip (r : Request) (o : String) (m : Option String) : Request :=
  { r with mode := some RMode.skip, outcome := some o, message := m }

/-- Modelled from the spec: request.markRequeue(outcome, message) records
the requeue decision and outcome/message on the Request. -/
def Request.markRequeue (r : Request) (o : String) (m : Option String) : Request :=
  { r with mode := some RMode.requeue, outcome := some o, message := m }

/-- Modelled from the spec: request.shouldSkip(). -/
def Request.shouldSkip (r : Request) : Bool :=
  r.mode = some RMode.skip

/-- Modelled from the spec: request.shouldRequeue(). -/
def Request.shouldRequeue (r : Request) : Bool :=
  r.mode = some RMode.requeue

/-- Modelled from the spec: request.shouldSave() consults the traversal
policy (spec section 4.3 stage 7). -/
def Request.shouldSave (r : Request) : Bool :=
  r.policy.shouldSaveB

/-- Modelled from the spec: request.delay(ms) records a polling delay. -/
def Request.delay (r : Request) (ms : Nat) : Request :=
  { r with delayMs := some ms }

/-- Modelled from the spec: request.addMeta(obj) accumulates per-stage
counters into request.meta. -/
def Request.addMeta (r : Request) (kv : String × Nat) : Request :=
  { r with meta := r.meta ++ [kv] }

/-- Modelled from the spec: request.track(promise) adds a side-effect
handle to request.promises; only the count is tracked here. -/
def Request.track (r : Request) : Request :=
  { r with promises := r.promises + 1 }

/-- Modelled from the spec: request.getCollectionType(); the collection
kind is carried as a plain field. -/
def Request.getCollectionType (r : Request) : Option String :=
  r.collectionType

/-- Insert or replace a link in a metadata link table. -/
def upsertLink (links : List (String × LinkValue)) (name : String) (v : LinkValue) :
    List (String × LinkValue) :=
  match links with
  | [] => [(name, v)]
  | (k, w) :: rest =>
    if k = name then (name, v) :: rest else (k, w) :: upsertLink rest name v

/-- Set a link on a document (no-op when metadata is absent, matching a
link added before conversion being lost). -/
def Document.setLink (d : Document) (name : String) (v : LinkValue) : Document :=
  { d with mdata := d.mdata.map (fun m => { m with links := upsertLink m.links name v }) }

/-- Modelled from the spec: request.linkResource(name, urn) adds a
resource link to the document being processed. -/
def Request.linkResource (r : Request) (name : String) (target : LinkTarget) : Request :=
  { r with document := r.document.map (fun d => d.setLink name ⟨"resource", target⟩) }

/-- Modelled from the spec: request.linkSiblings(urn) adds a siblings
link to the document being processed. -/
def Request.linkSiblings (r : Request) (urn : String) : Request :=
  { r with document := r.document.map (fun d => d.setLink "siblings" ⟨"siblings", LinkTarget.one urn⟩) }

/-- The qualifier of the request context as a JS template renders it
(undefined prints as the word undefined). -/
def Request.qualifierStr (r : Request) : String :=
  (r.context.bind (fun c => c.qualifier)).getD "undefined"

/-- The request type as a JS template renders it. -/
def Request.typeStr (r : Request) : String :=
  r.rtype.getD "undefined"

/-- Crawler options consumed by the pipeline. -/
structure CrawlerOptions where
  pollingDelay : Option Nat := none
  processingTtl : Option Nat := none
  orgList : List String := []
deriving DecidableEq, Repr

/-- Crawler configuration: whether a lock service is wired in, plus
options. -/
structure CrawlerCfg where
  hasLocker : Bool := true
  options : CrawlerOptions := {}
deriving DecidableEq, Repr

/-- External service calls issued by the crawler, in call order. -/
inductive QEvent where
  | lockTry (url : String)
  | unlock
  | pushQ (reqs : List Request) (queueName : String)
  | repush (q : Request)
  | pushDead (q : Request)
  | doneQ
  | abandonQ
  | upsertDoc (d : Option Document)
  | fetchCall (url : String)
  | queueElement (etype : Option String) (eurl : Option String) (qualifier : Option String)
deriving DecidableEq, Repr

/-- Is this event a queue acknowledgement or abandon? -/
def QEvent.isAck : QEvent → Bool
  | QEvent.doneQ => true
  | QEvent.abandonQ => true
  | _ => false

namespace Crawler

/-- Crawler._createQueuable(request): a fresh Request carrying only type,
url, context, plus attemptCount and policy. -/
def createQueuable (r : Request) : Request :=
  let queuable := Request.create r.rtype r.url r.context
  { queuable with attemptCount := r.attemptCount, policy := r.policy }

/-- Crawler._queueDead(request): push the queuable projection onto the
dead-letter queue. -/
def queueDead (r : Request) : List QEvent :=
  [QEvent.pushDead (createQueuable r)]

/-- Crawler._requeue(request): bump attemptCount (JS: the undefined count
defaults to 0 and is pre-incremented); above 5 dead-letter, otherwise
record the attempt in meta and repush the queuable projection to the
origin queue. -/
def requeue (r : Request) : Request × List QEvent :=
  let n := r.attemptCount.getD 0 + 1
  let r1 := { r with attemptCount := some n }
  if n > 5 then
    (r1, queueDead r1)
  else
    let r2 := r1.addMeta ("attempt", n)
    let queuable := createQueuable r2
    (r2, [QEvent.repush queuable])

/-- The path of a URL: everything after the scheme and authority
components, as url.parse exposes it (a scheme segment, an empty segment
from the double slash, the host, then the path segments). -/
def urlPath (target : String) : String :=
  match splitOnChar target '/' with
  | _scheme :: "" :: _host :: segs => String.intercalate "/" ("" :: segs)
  | _ => target

/-- Crawler._shouldInclude(type, target): with a non-empty org allowlist
and a repo/repos/org type, the org is path segment 2 of the URL, compared
lower-cased. -/
def shouldInclude (c : CrawlerCfg) (t : String) (target : String) : Bool :=
  if c.options.orgList.isEmpty then true
  else if t = "repo" ∨ t = "repos" ∨ t = "org" then
    let org := (splitOnChar (urlPath target) '/').getD 2 ""
    c.options.orgList.contains (lowerStr org)
  else true

/-- Crawler.queue(request, name): dead-letter and throw on a malformed
request (missing url or type); return the empty array on an
allowlist-filtered request; otherwise push the queuable projection onto
the named queue. -/
def queueRequest (c : CrawlerCfg) (r : Request) (name : String) :
    Except String (List Request) × List QEvent :=
  if !(truthy r.url) ∨ !(truthy r.rtype) then
    (Except.error "Attempt to queue malformed request", queueDead r)
  else if !(shouldInclude c (r.rtype.getD "") (r.url.getD "")) then
    (Except.ok [], [])
  else
    let queuable := createQueuable r
    (Except.ok [queuable], [QEvent.pushQ [queuable] name])

/-- Crawler._filter(request): dead-letter and mark Skip/Error a request
missing url or type; mark Skip/Filtered a request excluded by the org
allowlist. -/
def filterStage (c : CrawlerCfg) (r : Request) : Request × List QEvent :=
  if !(truthy r.url) ∨ !(truthy r.rtype) then
    (r.markSkip "Error" (some "Detected malformed request"), queueDead r)
  else if !(shouldInclude c (r.rtype.getD "") (r.url.getD "")) then
    (r.markSkip "Filtered" none, [])
  else
    (r, [])

/-- Crawler._acquireLock(request): no-op without url or lock service.
Otherwise issue the lock call; on success attach the lease; on an
Exceeded-shaped error markRequeue Requeued / Could not lock; on any other
error markRequeue Error.  The stage resolves (never rejects) in every
case, which the Except result records. -/
def acquireLock (c : CrawlerCfg) (lockResult : Except String String) (r : Request) :
    Except String Request × List QEvent :=
  if !(truthy r.url) ∨ !c.hasLocker then
    (Except.ok r, [])
  else
    match lockResult with
    | Except.ok lease =>
      (Except.ok { r with lock := some lease }, [QEvent.lockTry (r.url.getD "")])
    | Except.error msg =>
      if startsWithStr msg "Exceeded" then
        (Except.ok (r.markRequeue "Requeued" (some "Could not lock")), [QEvent.lockTry (r.url.getD "")])
      else
        (Except.ok (r.markRequeue "Error" (some msg)), [QEvent.lockTry (r.url.getD "")])

/-- Crawler._releaseLock(request): no-op without a held lock or lock
service; otherwise issue the unlock call.  Both the success and the
failure continuation clear the lock and resolve with the request, so the
stage always fulfills. -/
def releaseLock (c : CrawlerCfg) (r : Request) : Request × List QEvent :=
  if r.lock.isNone ∨ !c.hasLocker then
    (r, [])
  else
    ({ r with lock := none }, [QEvent.unlock])

/-- Outcomes of the external queue and promise operations during request
completion: whether the requeue queue operation (repush or pushDead)
fulfills, and whether Q.all(request.promises) fulfills. -/
structure CompleteOracle where
  queueOpOk : Bool := true
  promisesOk : Bool := true
deriving DecidableEq, Repr

/-- The requeue branch of Crawler._completeRequest: try _requeue, then
(finally) release the lock, then ack on requeue success or abandon on
requeue failure. -/
def completeRequeuePath (c : CrawlerCfg) (o : CompleteOracle) (r : Request) : List QEvent :=
  let rq := requeue r
  rq.2 ++ (releaseLock c rq.1).2 ++ (if o.queueOpOk then [QEvent.doneQ] else [QEvent.abandonQ])

/-- Crawler._completeRequest(request, forceRequeue): on the requeue path
(_forced or marked requeue with a url_) run _requeue, release, ack or
abandon.  On the happy path await the promises; on promise success
release the lock (which always fulfills, see releaseLock) and ack; on
promise failure recurse with forceRequeue set. -/
def completeRequest (c : CrawlerCfg) (o : CompleteOracle) (r : Request) :
    Bool → List QEvent
  | true => completeRequeuePath c o r
  | false =>
    if r.shouldRequeue && truthy r.url then
      completeRequeuePath c o r
    else if o.promisesOk then
      (releaseLock c r).2 ++ [QEvent.doneQ]
    else
      completeRequest c o r true
termination_by b => if b then 0 else 1
decreasing_by simp

/-- Fieldwise overlay of a stored metadata template onto freshly built
metadata (Object.assign with the template winning where it has a value). -/
def overlayTemplate (base : Metadata) : Option Metadata → Metadata
  | none => base
  | some t =>
    { mtype := t.mtype.orElse (fun _ => base.mtype)
      murl := t.murl.orElse (fun _ => base.murl)
      fetchedAt := t.fetchedAt.orElse (fun _ => base.fetchedAt)
      etag := t.etag.orElse (fun _ => base.etag)
      headerLink := t.headerLink.orElse (fun _ => base.headerLink)
      links := if t.links.isEmpty then base.links else t.links
      version := t.version.orElse (fun _ => base.version) }

/-- Crawler._convertToDocument(request): on a non-skipped request build
metadata (type, url, fetch time, etag and link header when present),
overlay any metadata template carried on the response, and attach it to
the document.  Array payloads are already element-wrapped in this model. -/
def convertToDocument (now : String) (r : Request) : Request :=
  if r.shouldSkip then r
  else
    let etag := r.response.bind (fun resp => resp.headers.etag)
    let linkH := r.response.bind (fun resp => resp.headers.link)
    let md : Metadata :=
      { mtype := r.rtype, murl := r.url, fetchedAt := some now
        etag := etag, headerLink := linkH, links := [], version := none }
    let md := overlayTemplate md (r.response.bind (fun resp => resp.metadataTemplate))
    { r with document := r.document.map (fun d => { d with mdata := some md }) }

/-- Crawler._fetch(request): pass a skipped request through, otherwise
call the fetcher (an external collaborator). -/
def fetchStage (fetcher : Request → Request × List QEvent) (r : Request) :
    Request × List QEvent :=
  if r.shouldSkip then (r, []) else fetcher r

/-- The pop-returned-nothing branch of Crawler._getRequestWork: a blank
request with the polling delay (defaulting to 2000 ms), marked skip with
reason Exhausted queue, an empty context and no promises. -/
def getRequestWorkEmpty (c : CrawlerCfg) : Request :=
  let r := Request.create (some "_blank") none none
  let r := r.delay (c.options.pollingDelay.getD 2000)
  let r := r.markSkip "Exhausted queue" (some "Waiting 2 seconds")
  { r with context := some {}, promises := 0 }

end Crawler

/-- Processor state: the constructor sets version to 3. -/
structure ProcessorSt where
  version : Nat
deriving DecidableEq, Repr

/-- new Processor(). -/
def processorNew : ProcessorSt := ⟨3⟩

namespace Processor

/-- The page parameter of the query string of a URL, as url.parse(url,
true).query.page exposes it. -/
def parseQueryPage (u : String) : Option String :=
  match splitOnChar u '?' with
  | _ :: q :: _ =>
    (splitOnChar q '&').findSome? (fun kv =>
      match splitOnChar kv '=' with
      | k :: v :: _ => if k = "page" then some v else none
      | _ => none)
  | _ => none

/-- The handler table: the page and collection handlers plus the
per-type method lookup on the Processor object. -/
structure HandlerEnv where
  pageH : String → Request → Document
  collectionH : Request → Document
  byType : String → Option (Request → Document)

/-- Processor._getHandler(request): a page query dispatches to the page
handler bound to the page number, a collection type dispatches to the
collection handler, otherwise the handler named by the request type. -/
def getHandler (env : HandlerEnv) (r : Request) : Option (Request → Document) :=
  match r.url.bind parseQueryPage with
  | some p => some (env.pageH p)
  | none =>
    match r.getCollectionType with
    | some _ => some env.collectionH
    | none =>
      match r.rtype with
      | some t => env.byType t
      | none => none

/-- Processor.process(request): skip when no handler is found or the
policy vetoes processing, returning the document unchanged; otherwise run
the handler and stamp the processor version into the result metadata.
The none result models the TypeError thrown when the handler result has
no metadata object to stamp. -/
def process (env : HandlerEnv) (p : ProcessorSt) (r : Request) :
    Option (Request × Option Document) :=
  match getHandler env r with
  | none => some (r.markSkip "Skip" (some "No handler found for request type"), r.document)
  | some h =>
    if !(r.policy.shouldProcess p.version) then
      some (r.markSkip "Excluded" (some "Traversal policy excluded this resource"), r.document)
    else
      let result := h r
      match result.mdata with
      | none => none
      | some md => some (r, some { result with mdata := some { md with version := some p.version } })

/-- String form of a possibly-absent numeric id inside a JS template
(undefined prints as the word undefined). -/
def optNatStr : Option Nat → String
  | none => "undefined"
  | some n => toString n

/-- Processor._processRelation(request, origin, name, type): origin and
origin-type resource links to the qualifier, a siblings link to the pages
urn, and a resources link listing the urn of every element. -/
def processRelation (r : Request) (origin : String) (name : String) (rkind : String) :
    Request :=
  let q := r.qualifierStr
  let r1 := r.linkResource "origin" (LinkTarget.one q)
  let r2 := r1.linkResource origin (LinkTarget.one q)
  let r3 := r2.linkSiblings s!"{q}:{name}:pages"
  let urns := (r3.document.getD {}).elements.map (fun e => s!"urn:{rkind}:{optNatStr e.eid}")
  r3.linkResource "resources" (LinkTarget.many urns)

/-- Processor.page(page, request): set the self link to
qualifier:type:page:n, process a relation when the context carries one,
and queue every element of the document; returns the (mutated) document.
queueCollectionElement is modelled from the spec as the recorded
element-queueing call (the Request class is not among the sources). -/
def page (pageNo : Nat) (r : Request) : Request × Document × List QEvent :=
  let qualifier := r.context.bind (fun c => c.qualifier)
  let selfUrn := s!"{r.qualifierStr}:{r.typeStr}:page:{pageNo}"
  let r1 := r.linkResource "self" (LinkTarget.one selfUrn)
  let r2 :=
    match r.context.bind (fun c => c.relation) with
    | some rel => processRelation r1 rel.origin rel.rname rel.rkind
    | none => r1
  let elementType := r2.getCollectionType
  let evs := (r2.document.getD {}).elements.map
    (fun item => QEvent.queueElement elementType item.eurl qualifier)
  (r2, r2.document.getD {}, evs)

/-- Processor.collection(request): when the response carries a link
header, parse it and enqueue one new request per page from 2 to the last
page onto the soon queue, each carrying the current policy and a context
holding only the current qualifier; then process the request as page 1.
The external link-header parsing library is abstracted by the
parseLastPage oracle (links.last.page). -/
def collection (parseLastPage : String → Nat) (r : Request) :
    Request × Document × List QEvent :=
  match r.response.bind (fun resp => resp.headers.link) with
  | some lh =>
    let lastPage := parseLastPage lh
    let requests := (List.range' 2 (lastPage - 1)).map (fun i =>
      let url := r.url.getD "undefined" ++ s!"?page={i}&per_page=100"
      let newRequest := Request.create r.rtype (some url) none
      { newRequest with
          policy := r.policy
          context := some { qualifier := r.context.bind (fun c => c.qualifier), relation := none } })
    let r1 := r.track
    let res := page 1 r1
    (res.1, res.2.1, QEvent.pushQ requests "soon" :: res.2.2)
  | none => page 1 r

end Processor

namespace Crawler

/-- Crawler._processDocument(request): pass a skipped request through,
otherwise replace the document with the processor result.  The none
result propagates a processor throw to the pipeline error handler. -/
def processDocument (env : Processor.HandlerEnv) (p : ProcessorSt) (r : Request) :
    Option Request :=
  if r.shouldSkip then some r
  else (Processor.process env p r).map (fun x => { x.1 with document := x.2 })

/-- Crawler._storeDocument(request): skip unless the request is live and
the policy saves; otherwise upsert the document, attach the upsert result
and record the store latency in meta. -/
def storeDocument (r : Request) : Request × List QEvent :=
  if r.shouldSkip ∨ !r.shouldSave then (r, [])
  else ({ r with upsert := true, meta := r.meta ++ [("store", 0)] }, [QEvent.upsertDoc r.document])

/-- The process-then-store tail of the pipeline (stages 6 and 7). -/
def processThenStore (env : Processor.HandlerEnv) (p : ProcessorSt) (r : Request) :
    Option (Request × List QEvent) :=
  (processDocument env p r).map storeDocument

/-- One full cycle of Crawler.processOne for the pop-returned-nothing
case: blank request, lock stage, filter, fetch, convert, process, store,
complete.  The promise oracle for completion is true because
Q.all of the empty promises list fulfills. -/
def processOneEmpty (c : CrawlerCfg) (lockResult : Except String String)
    (fetcher : Request → Request × List QEvent) (env : Processor.HandlerEnv)
    (p : ProcessorSt) (now : String) : Option (Request × List QEvent) :=
  let r0 := getRequestWorkEmpty c
  let acq := acquireLock c lockResult r0
  let ar := match acq.1 with
    | Except.ok r => r
    | Except.error _ => r0
  let flt := filterStage c ar
  let fch := fetchStage fetcher flt.1
  let cr := convertToDocument now fch.1
  match processDocument env p cr with
  | none => none
  | some pr =>
    let st := storeDocument pr
    let evs5 := completeRequest c { queueOpOk := true, promisesOk := true } st.1 false
    some (st.1, acq.2 ++ flt.2 ++ fch.2 ++ st.2 ++ evs5)

end Crawler

/-- Observable loop events: a crawl cycle beginning, or the done callback
firing. -/
inductive LoopEv where
  | cycle
  | doneCb
deriving DecidableEq, Repr

/-- The worker loop of Crawler.run and Crawler._run, with the sentinel
checks made explicit.  sched t is whether context.delay reads -1 at
observation instant t; each iteration checks on entry to run (before the
setTimeout sleep) and again in _run on wake, then performs one processOne
cycle and loops.  Fuel bounds the unrolling. -/
def runLoop (sched : Nat → Bool) : Nat → Nat → List LoopEv
  | _, 0 => []
  | t, fuel+1 =>
    if sched t then [LoopEv.doneCb]
    else if sched (t+1) then [LoopEv.doneCb]
    else LoopEv.cycle :: runLoop sched (t+2) fuel

/-- A CrawlerLoop: name, lifecycle state (null, running, stopping,
stopped) and the delay field of its options. -/
structure CrawlerLoopSt where
  lname : String := ""
  lstate : Option String := none
  ldelay : Int := 0
deriving DecidableEq, Repr

/-- CrawlerLoop.running(). -/
def CrawlerLoopSt.runningB (l : CrawlerLoopSt) : Bool :=
  l.lstate = some "running"

/-- CrawlerLoop.stop(): a no-op on a stopped or stopping loop, otherwise
move to stopping and set the delay sentinel to -1. -/
def CrawlerLoopSt.stop (l : CrawlerLoopSt) : CrawlerLoopSt :=
  if l.lstate = some "stopped" ∨ l.lstate = some "stopping" then l
  else { l with lstate := some "stopping", ldelay := -1 }

/-- CrawlerService state: the loop list and the configured target count. -/
structure ServiceSt where
  loops : List CrawlerLoopSt := []
  count : Nat := 0
deriving DecidableEq, Repr

/-- CrawlerService.status(): the source counts loop.running per loop, a
method reference that is always truthy, so this is the length of the
loop list. -/
def serviceStatus (loops : List CrawlerLoopSt) : Nat :=
  loops.foldl (fun n _ => n + 1) 0

/-- The stop branch of ensureLoops: k times, shift a loop off the front
of the list and stop it.  Returns the remaining list and the stopped
loops in stop order. -/
def stopFromFront : Nat → List CrawlerLoopSt → List CrawlerLoopSt × List CrawlerLoopSt
  | 0, ls => (ls, [])
  | _+1, [] => ([], [])
  | k+1, l :: ls =>
    let rest := stopFromFront k ls
    (rest.1, l.stop :: rest.2)

/-- CrawlerService.ensureLoops(): prune non-running loops, compute the
delta to the configured count; when negative, shift-and-stop that many
loops from the front; otherwise spawn that many new running loops named
by their spawn index and append them.  Returns the new state, the
stopped loops, and the spawned loops. -/
def ensureLoops (s : ServiceSt) : ServiceSt × List CrawlerLoopSt × List CrawlerLoopSt :=
  let loops := s.loops.filter CrawlerLoopSt.runningB
  let running := serviceStatus loops
  let delta : Int := (s.count : Int) - (running : Int)
  if delta < 0 then
    let r := stopFromFront delta.natAbs loops
    ({ s with loops := r.1 }, r.2, [])
  else
    let spawned := (List.range delta.toNat).map
      (fun i => ({ lname := toString i, lstate := some "running", ldelay := 0 } : CrawlerLoopSt))
    ({ s with loops := loops ++ spawned }, [], spawned)

/-! Theorems. -/

/-- C3: the queuable projection built by _createQueuable carries exactly
the type, url, context, policy and attemptCount of the original request
and drops every transient field: lock, promises, document, response,
upsert result, meta, and the mode/outcome markers. -/
theorem createQueuable_projection_c3 (r : Request) :
    (Crawler.createQueuable r).rtype = r.rtype ∧
    (Crawler.createQueuable r).url = r.url ∧
    (Crawler.createQueuable r).context = r.context ∧
    (Crawler.createQueuable r).policy = r.policy ∧
    (Crawler.createQueuable r).attemptCount = r.attemptCount ∧
    (Crawler.createQueuable r).lock = none ∧
    (Crawler.createQueuable r).promises = 0 ∧
    (Crawler.createQueuable r).document = none ∧
    (Crawler.createQueuable r).response = none ∧
    (Crawler.createQueuable r).upsert = false ∧
    (Crawler.createQueuable r).meta = [] ∧
    (Crawler.createQueuable r).mode = none ∧
    (Crawler.createQueuable r).outcome = none ∧
    (Crawler.createQueuable r).message = none ∧
    (Crawler.createQueuable r).delayMs = none :=
  ⟨rfl, rfl, rfl, rfl, rfl, rfl, rfl, rfl, rfl, rfl, rfl, rfl, rfl, rfl, rfl⟩

/-- C2: _requeue increments attemptCount by one; when the incremented
count exceeds 5 the queuable projection is dead-lettered and nothing is
repushed; otherwise the queuable projection is repushed and the attempt
number is recorded in meta; consequently every repushed queuable carries
attemptCount at most 5, and an incremented count of 6 lands in the
dead-letter queue. -/
theorem requeue_attempts_c2 (r : Request) (k : Nat) (hk : r.attemptCount.getD 0 = k) :
    ((Crawler.requeue r).1.attemptCount = some (k + 1)) ∧
    (5 < k + 1 →
      (Crawler.requeue r).2 =
        [QEvent.pushDead (Crawler.createQueuable (Crawler.requeue r).1)] ∧
      ∀ q, QEvent.repush q ∉ (Crawler.requeue r).2) ∧
    (k + 1 ≤ 5 →
      (Crawler.requeue r).2 =
        [QEvent.repush (Crawler.createQueuable (Crawler.requeue r).1)] ∧
      (Crawler.createQueuable (Crawler.requeue r).1).attemptCount = some (k + 1) ∧
      (Crawler.createQueuable (Crawler.requeue r).1).rtype = r.rtype ∧
      (Crawler.createQueuable (Crawler.requeue r).1).url = r.url ∧
      ("attempt", k + 1) ∈ (Crawler.requeue r).1.meta) ∧
    (∀ q, QEvent.repush q ∈ (Crawler.requeue r).2 → q.attemptCount.getD 0 ≤ 5) := by
  subst hk
  by_cases h : 5 < r.attemptCount.getD 0 + 1
  · refine ⟨?_, fun _ => ⟨?_, ?_⟩, fun hle => absurd h (by omega), fun q hq => ?_⟩
    · simp [Crawler.requeue, h]
    · simp [Crawler.requeue, Crawler.queueDead, h]
    · intro q
      simp [Crawler.requeue, Crawler.queueDead, h]
    · simp [Crawler.requeue, Crawler.queueDead, h] at hq
  · refine ⟨?_, fun hgt => absurd hgt h, fun _ => ⟨?_, ?_, ?_, ?_, ?_⟩, fun q hq => ?_⟩
    · simp [Crawler.requeue, Request.addMeta, h]
    · simp [Crawler.requeue, h]
    · simp [Crawler.requeue, Crawler.createQueuable, Request.create, Request.addMeta, h]
    · simp [Crawler.requeue, Crawler.createQueuable, Request.create, Request.addMeta, h]
    · simp [Crawler.requeue, Crawler.createQueuable, Request.create, Request.addMeta, h]
    · simp [Crawler.requeue, Request.addMeta, h]
    · simp [Crawler.requeue, Crawler.createQueuable, Request.create, Request.addMeta, h] at hq
      subst hq
      simp [Crawler.createQueuable, Request.create, Request.addMeta]
      omega

/-- C2 witness: a request on its fifth recorded attempt is incremented to
six and dead-lettered. -/
theorem requeue_attempts_c2_witness :
    (({ attemptCount := some 5 } : Request).attemptCount.getD 0 = 5) ∧
    (Crawler.requeue ({ attemptCount := some 5 } : Request)).1.attemptCount = some 6 ∧
    (Crawler.requeue ({ attemptCount := some 5 } : Request)).2 =
      [QEvent.pushDead (Crawler.createQueuable (Crawler.requeue ({ attemptCount := some 5 } : Request)).1)] :=
  ⟨rfl,
    (requeue_attempts_c2 ({ attemptCount := some 5 } : Request) 5 rfl).1,
    ((requeue_attempts_c2 ({ attemptCount := some 5 } : Request) 5 rfl).2.1 (by omega)).1⟩

/-- C4: with a (truthy) url and a configured lock service, _acquireLock
attaches the lease on success; marks the request Requeued with message
Could not lock on an Exceeded-shaped failure; marks Error with the
failing message on any other failure; and fulfills on every lock outcome,
so the pipeline continues to the subsequent stages. -/
theorem acquireLock_marks_c4 (c : CrawlerCfg) (r : Request)
    (hu : truthy r.url = true) (hl : c.hasLocker = true) :
    (∀ lease, (Crawler.acquireLock c (Except.ok lease) r).1 =
        Except.ok { r with lock := some lease }) ∧
    (∀ msg, startsWithStr msg "Exceeded" = true →
      (Crawler.acquireLock c (Except.error msg) r).1 =
        Except.ok (r.markRequeue "Requeued" (some "Could not lock"))) ∧
    (∀ msg, startsWithStr msg "Exceeded" = false →
      (Crawler.acquireLock c (Except.error msg) r).1 =
        Except.ok (r.markRequeue "Error" (some msg))) ∧
    (∀ o m, (r.markRequeue o m).shouldRequeue = true ∧ (r.markRequeue o m).outcome = some o ∧
      (r.markRequeue o m).message = m) ∧
    (∀ res, ∃ r', (Crawler.acquireLock c res r).1 = Except.ok r') := by
  refine ⟨?_, ?_, ?_, ?_, ?_⟩
  · intro lease
    simp [Crawler.acquireLock, hu, hl]
  · intro msg hmsg
    simp [Crawler.acquireLock, hu, hl, hmsg]
  · intro msg hmsg
    simp [Crawler.acquireLock, hu, hl, hmsg]
  · intro o m
    exact ⟨by simp [Request.markRequeue, Request.shouldRequeue], rfl, rfl⟩
  · intro res
    cases res with
    | ok lease =>
      exact ⟨{ r with lock := some lease }, by simp [Crawler.acquireLock, hu, hl]⟩
    | error msg =>
      by_cases hmsg : startsWithStr msg "Exceeded"
      · exact ⟨r.markRequeue "Requeued" (some "Could not lock"),
          by simp [Crawler.acquireLock, hu, hl, hmsg]⟩
      · exact ⟨r.markRequeue "Error" (some msg),
          by simp [Crawler.acquireLock, hu, hl, hmsg]⟩

/-- C4 witness: contention on a concrete url marks Requeued / Could not
lock. -/
theorem acquireLock_marks_c4_witness :
    (truthy ({ url := some "https://api.example.com/repos/acme/widget" } : Request).url = true ∧
      ({} : CrawlerCfg).hasLocker = true) ∧
    (Crawler.acquireLock {} (Except.error "Exceeded lock count")
        ({ url := some "https://api.example.com/repos/acme/widget" } : Request)).1 =
      Except.ok (Request.markRequeue
        ({ url := some "https://api.example.com/repos/acme/widget" } : Request)
        "Requeued" (some "Could not lock")) :=
  ⟨⟨rfl, rfl⟩,
    (acquireLock_marks_c4 {} ({ url := some "https://api.example.com/repos/acme/widget" } : Request)
      rfl rfl).2.1 "Exceeded lock count" rfl⟩

/-- C10: Crawler.queue dead-letters the queuable projection of a request
missing url or type and then throws; a request excluded by the org
allowlist yields the empty array and no queue operation at all. -/
theorem queueRequest_malformed_c10 (c : CrawlerCfg) (r : Request) (name : String) :
    (truthy r.url = false ∨ truthy r.rtype = false →
      (Crawler.queueRequest c r name).1 = Except.error "Attempt to queue malformed request" ∧
      (Crawler.queueRequest c r name).2 = [QEvent.pushDead (Crawler.createQueuable r)]) ∧
    (truthy r.url = true → truthy r.rtype = true →
      Crawler.shouldInclude c (r.rtype.getD "") (r.url.getD "") = false →
      (Crawler.queueRequest c r name).1 = Except.ok [] ∧
      (Crawler.queueRequest c r name).2 = []) := by
  constructor
  · intro hmal
    have hcond : (!truthy r.url) = true ∨ (!truthy r.rtype) = true := by
      rcases hmal with h | h <;> simp [h]
    simp only [Crawler.queueRequest, Crawler.queueDead]
    rw [if_pos hcond]
    exact ⟨rfl, rfl⟩
  · intro hu ht hexc
    simp [Crawler.queueRequest, hu, ht, hexc]

/-- C10 witness: a url-less request is dead-lettered with an error result,
and a repo request for an org outside the allowlist yields the empty
array with no queue event. -/
theorem queueRequest_malformed_c10_witness :
    ((Crawler.queueRequest {} ({ rtype := some "org" } : Request) "normal").1 =
        Except.error "Attempt to queue malformed request" ∧
      (Crawler.queueRequest {} ({ rtype := some "org" } : Request) "normal").2 =
        [QEvent.pushDead (Crawler.createQueuable ({ rtype := some "org" } : Request))]) ∧
    ((Crawler.queueRequest { options := { orgList := ["other"] } }
        ({ rtype := some "repo", url := some "https://api.github.com/repos/acme/widget" } : Request)
        "normal").1 = Except.ok [] ∧
      (Crawler.queueRequest { options := { orgList := ["other"] } }
        ({ rtype := some "repo", url := some "https://api.github.com/repos/acme/widget" } : Request)
        "normal").2 = []) :=
  ⟨(queueRequest_malformed_c10 {} ({ rtype := some "org" } : Request) "normal").1 (Or.inl rfl),
    (queueRequest_malformed_c10 { options := { orgList := ["other"] } }
      ({ rtype := some "repo", url := some "https://api.github.com/repos/acme/widget" } : Request)
      "normal").2 rfl rfl (by decide)⟩

/-- The source counts running loops with a truthy method reference, so
status is the length of the loop list. -/
theorem serviceStatus_eq_length (ls : List CrawlerLoopSt) :
    serviceStatus ls = ls.length := by
  have h : ∀ a, ls.foldl (fun n _ => n + 1) a = a + ls.length := by
    induction ls with
    | nil => intro a; simp
    | cons l rest ih => intro a; simp [List.foldl, ih]; omega
  simpa [serviceStatus] using h 0

/-- Shifting k loops off the front and stopping them drops the first k
and stops exactly those. -/
theorem stopFromFront_eq (k : Nat) (ls : List CrawlerLoopSt) :
    stopFromFront k ls = (ls.drop k, (ls.take k).map CrawlerLoopSt.stop) := by
  induction k generalizing ls with
  | zero => simp [stopFromFront]
  | succ k ih =>
    cases ls with
    | nil => simp [stopFromFront]
    | cons l rest => simp [stopFromFront, ih]

/-- C8: once the delay field reads the -1 sentinel, the loop invokes the
done callback exactly once and begins no further crawl cycle, whether the
sentinel is observed on run entry or on the wake after sleeping; and
CrawlerLoop.stop is idempotent, a no-op on loops already stopping or
stopped, and sets the -1 sentinel on a loop that is neither. -/
theorem loop_stop_c8 (sched : Nat → Bool) (t fuel : Nat) (l : CrawlerLoopSt) :
    (sched t = true → runLoop sched t (fuel + 1) = [LoopEv.doneCb]) ∧
    (sched t = false → sched (t + 1) = true →
      runLoop sched t (fuel + 1) = [LoopEv.doneCb]) ∧
    (l.stop.stop = l.stop) ∧
    (l.lstate = some "stopping" ∨ l.lstate = some "stopped" → l.stop = l) ∧
    (l.lstate ≠ some "stopping" → l.lstate ≠ some "stopped" →
      l.stop.ldelay = -1 ∧ l.stop.lstate = some "stopping") := by
  refine ⟨?_, ?_, ?_, ?_, ?_⟩
  · intro h
    simp [runLoop, h]
  · intro h h1
    simp [runLoop, h, h1]
  · by_cases h : l.lstate = some "stopped" ∨ l.lstate = some "stopping"
    · simp [CrawlerLoopSt.stop, h]
    · simp [CrawlerLoopSt.stop, if_neg h]
  · intro h
    have h' : l.lstate = some "stopped" ∨ l.lstate = some "stopping" := h.symm
    simp [CrawlerLoopSt.stop, h']
  · intro h1 h2
    have h : ¬(l.lstate = some "stopped" ∨ l.lstate = some "stopping") := by
      rintro (h | h) <;> [exact h2 h; exact h1 h]
    simp [CrawlerLoopSt.stop, h]

/-- C8 witness: with the sentinel set at every observation instant, a run
with fuel produces exactly one done callback and no cycle, and stop is
idempotent on a concrete running loop. -/
theorem loop_stop_c8_witness :
    ((fun _ => true) (0 : Nat) = true ∧
      runLoop (fun _ => true) 0 4 = [LoopEv.doneCb]) ∧
    ({ lname := "0", lstate := some "running", ldelay := 0 } : CrawlerLoopSt).stop.stop =
      ({ lname := "0", lstate := some "running", ldelay := 0 } : CrawlerLoopSt).stop :=
  ⟨⟨rfl, (loop_stop_c8 (fun _ => true) 0 3
      ({ lname := "0", lstate := some "running", ldelay := 0 } : CrawlerLoopSt)).1 rfl⟩,
    (loop_stop_c8 (fun _ => true) 0 3
      ({ lname := "0", lstate := some "running", ldelay := 0 } : CrawlerLoopSt)).2.2.1⟩

/-- C9 counterexample: with two running loops and a configured count of
one, ensureLoops stops the loop shifted off the head of the loop list
(the one named 0), not the tail loop (named 1) the claim designates. -/
theorem ensureLoops_c9_counterexample :
    ((ensureLoops
        { loops := [{ lname := "0", lstate := some "running", ldelay := 0 },
                    { lname := "1", lstate := some "running", ldelay := 0 }],
          count := 1 }).2.1.map CrawlerLoopSt.lname = ["0"] ∧
      (ensureLoops
        { loops := [{ lname := "0", lstate := some "running", ldelay := 0 },
                    { lname := "1", lstate := some "running", ldelay := 0 }],
          count := 1 }).1.loops.map CrawlerLoopSt.lname = ["1"]) ∧
    ¬((["0"] : List String) = ["1"]) := by
  constructor
  · constructor <;> rfl
  · decide

/-- C9 (amended): ensureLoops first prunes non-running loops; when the
configured count is at least the number of running loops it spawns
exactly count minus running new loops (appended at the tail) and stops
none; when running exceeds the count it stops exactly running minus count
loops taken from the head of the loop list and spawns none. -/
theorem ensureLoops_reconcile_c9 (s : ServiceSt) :
    (∀ l ∈ s.loops.filter CrawlerLoopSt.runningB, l.runningB = true) ∧
    (s.count ≥ (s.loops.filter CrawlerLoopSt.runningB).length →
      (ensureLoops s).2.2.length = s.count - (s.loops.filter CrawlerLoopSt.runningB).length ∧
      (ensureLoops s).2.1 = [] ∧
      (ensureLoops s).1.loops = s.loops.filter CrawlerLoopSt.runningB ++ (ensureLoops s).2.2) ∧
    (s.count < (s.loops.filter CrawlerLoopSt.runningB).length →
      (ensureLoops s).2.1 =
        ((s.loops.filter CrawlerLoopSt.runningB).take
          ((s.loops.filter CrawlerLoopSt.runningB).length - s.count)).map CrawlerLoopSt.stop ∧
      (ensureLoops s).1.loops =
        (s.loops.filter CrawlerLoopSt.runningB).drop
          ((s.loops.filter CrawlerLoopSt.runningB).length - s.count) ∧
      (ensureLoops s).2.2 = []) := by
  refine ⟨?_, ?_, ?_⟩
  · intro l hl
    exact (List.mem_filter.mp hl).2
  · intro h
    have hd : ¬((s.count : Int) - ((serviceStatus (s.loops.filter CrawlerLoopSt.runningB) : Nat) : Int) < 0) := by
      rw [serviceStatus_eq_length]
      omega
    refine ⟨?_, ?_, ?_⟩
    · simp only [ensureLoops, if_neg hd, List.length_map, List.length_range]
      rw [serviceStatus_eq_length]
      omega
    · simp only [ensureLoops, if_neg hd]
    · simp only [ensureLoops, if_neg hd]
  · intro h
    have hd : ((s.count : Int) - ((serviceStatus (s.loops.filter CrawlerLoopSt.runningB) : Nat) : Int) < 0) := by
      rw [serviceStatus_eq_length]
      omega
    have habs : ((s.count : Int) - ((serviceStatus (s.loops.filter CrawlerLoopSt.runningB) : Nat) : Int)).natAbs =
        (s.loops.filter CrawlerLoopSt.runningB).length - s.count := by
      rw [serviceStatus_eq_length]
      omega
    refine ⟨?_, ?_, ?_⟩ <;>
      simp only [ensureLoops, if_pos hd, stopFromFront_eq, habs]

/-- C9 witness for the amended claim: one running loop and count three
spawns two loops; three running loops and count one stops the first two. -/
theorem ensureLoops_reconcile_c9_witness :
    ((3 : Nat) ≥ ([({ lname := "a", lstate := some "running", ldelay := 0 } : CrawlerLoopSt)].filter
        CrawlerLoopSt.runningB).length ∧
      (ensureLoops ⟨[⟨"a", some "running", 0⟩], 3⟩).2.2.length = 2) ∧
    (ensureLoops ⟨[⟨"x", some "running", 0⟩, ⟨"y", some "running", 0⟩,
        ⟨"z", some "running", 0⟩], 1⟩).2.1.map CrawlerLoopSt.lname = ["x", "y"] := by
  constructor
  · constructor
    · decide
    · exact ((ensureLoops_reconcile_c9 ⟨[⟨"a", some "running", 0⟩], 3⟩).2.1 (by decide)).1
  · have h := ((ensureLoops_reconcile_c9 ⟨[⟨"x", some "running", 0⟩, ⟨"y", some "running", 0⟩,
        ⟨"z", some "running", 0⟩], 1⟩).2.2 (by decide)).1
    rw [h]
    rfl

/-- C5: evaluation of the empty-pop cycle.  The synthesized blank request
(type _blank, no url, skip reason Exhausted queue, polling delay
defaulting to 2000 ms) causes no lock call and no store call, but the
cycle is not free of queue operations: _filter, which has no shouldSkip
guard, dead-letters the blank request via queues.pushDead, and completion
acks it via queues.done — contradicting the claim that no queue operation
of any kind occurs. -/
theorem processOneEmpty_queueOps_c5 (c : CrawlerCfg) (lockResult : Except String String)
    (fetcher : Request → Request × List QEvent) (env : Processor.HandlerEnv)
    (p : ProcessorSt) (now : String) :
    Crawler.processOneEmpty c lockResult fetcher env p now =
      some ({ rtype := some "_blank", context := some ({} : Context),
              mode := some RMode.skip, outcome := some "Error",
              message := some "Detected malformed request",
              delayMs := some (c.options.pollingDelay.getD 2000) },
            [QEvent.pushDead { rtype := some "_blank", context := some ({} : Context) },
             QEvent.doneQ]) := by
  simp [Crawler.processOneEmpty, Crawler.getRequestWorkEmpty, Crawler.acquireLock,
    Crawler.filterStage, Crawler.fetchStage, Crawler.convertToDocument, Crawler.processDocument,
    Crawler.storeDocument, Crawler.completeRequest, Crawler.releaseLock, Crawler.queueDead,
    Request.create, Request.delay, Request.markSkip, Request.shouldSkip, Request.shouldRequeue,
    Request.shouldSave, truthy, Crawler.createQueuable]

/-- C6: when a handler is found and the policy permits, Processor.process
stamps the processor version (3) into the metadata of the returned
document; and in the process-then-store pipeline tail every document
passed to Store.upsert carries metadata with that version. -/
theorem process_version_c6 (env : Processor.HandlerEnv) (r : Request) :
    (∀ h md, Processor.getHandler env r = some h →
      r.policy.shouldProcessB = true →
      (h r).mdata = some md →
      Processor.process env processorNew r =
        some (r, some { h r with mdata := some { md with version := some 3 } })) ∧
    (∀ r2 evs od d m,
      Crawler.processThenStore env processorNew r = some (r2, evs) →
      QEvent.upsertDoc od ∈ evs → od = some d → d.mdata = some m →
      m.version = some 3) := by
  constructor
  · intro h md hh hp hmd
    simp [Processor.process, hh, Policy.shouldProcess, hp, hmd, processorNew]
  · intro r2 evs od d m hps hmem hod hm
    simp only [Crawler.processThenStore, Crawler.processDocument] at hps
    by_cases hs : r.shouldSkip
    · rw [if_pos hs, Option.map_some'] at hps
      replace hps := congrArg Prod.snd (Option.some.inj hps)
      dsimp only at hps
      rw [← hps] at hmem
      simp [Crawler.storeDocument, hs] at hmem
    · rw [if_neg hs] at hps
      simp only [Bool.not_eq_true] at hs
      have hsmode : ¬(r.mode = some RMode.skip) := by
        simpa [Request.shouldSkip] using hs
      rcases hh : Processor.getHandler env r with - | h
      · simp only [Processor.process, hh, Option.map_some'] at hps
        replace hps := congrArg Prod.snd (Option.some.inj hps)
        dsimp only at hps
        rw [← hps] at hmem
        simp [Crawler.storeDocument, Request.shouldSkip, Request.markSkip] at hmem
      · by_cases hp : r.policy.shouldProcessB
        · rcases hmd : (h r).mdata with - | md
          · simp [Processor.process, hh, Policy.shouldProcess, hp, hmd] at hps
          · simp only [Processor.process, hh, Policy.shouldProcess, hp, hmd, Bool.not_true,
              Bool.false_eq_true, if_false, Option.map_some'] at hps
            replace hps := congrArg Prod.snd (Option.some.inj hps)
            dsimp only at hps
            rw [← hps] at hmem
            by_cases hsv : r.policy.shouldSaveB
            · simp [Crawler.storeDocument, Request.shouldSkip, Request.shouldSave, hsmode,
                hsv] at hmem
              rw [hod] at hmem
              simp only [Option.some.injEq] at hmem
              subst hmem
              simp only [Option.some.injEq] at hm
              subst hm
              rfl
            · simp only [Bool.not_eq_true] at hsv
              simp [Crawler.storeDocument, Request.shouldSkip, Request.shouldSave, hsmode,
                hsv] at hmem
        · simp only [Bool.not_eq_true] at hp
          simp only [Processor.process, hh, Policy.shouldProcess, hp, Bool.not_false, if_true,
            Option.map_some'] at hps
          replace hps := congrArg Prod.snd (Option.some.inj hps)
          dsimp only at hps
          rw [← hps] at hmem
          simp [Crawler.storeDocument, Request.shouldSkip, Request.markSkip] at hmem

/-- C6 witness: a concrete org request dispatched to a handler whose
result carries metadata is stamped with version 3. -/
theorem process_version_c6_witness :
    (Processor.getHandler
        ⟨fun _ _ => {}, fun _ => {},
          fun t => if t = "org" then some (fun _ => ({ mdata := some {} } : Document)) else none⟩
        ({ rtype := some "org", url := some "https://api.example.com/orgs/acme" } : Request) =
      some (fun _ => ({ mdata := some {} } : Document))) ∧
    Processor.process
      ⟨fun _ _ => {}, fun _ => {},
        fun t => if t = "org" then some (fun _ => ({ mdata := some {} } : Document)) else none⟩
      processorNew
      ({ rtype := some "org", url := some "https://api.example.com/orgs/acme" } : Request) =
      some (({ rtype := some "org", url := some "https://api.example.com/orgs/acme" } : Request),
        some ({ mdata := some ({ version := some 3 } : Metadata) } : Document)) := by
  refine ⟨rfl, ?_⟩
  exact (process_version_c6
    ⟨fun _ _ => {}, fun _ => {},
      fun t => if t = "org" then some (fun _ => ({ mdata := some {} } : Document)) else none⟩
    ({ rtype := some "org", url := some "https://api.example.com/orgs/acme" } : Request)).1
    (fun _ => ({ mdata := some {} } : Document)) {} rfl rfl rfl

/-- Looking up the key just inserted or replaced finds the new value. -/
theorem lookup_upsertLink (ls : List (String × LinkValue)) (k : String) (v : LinkValue) :
    (upsertLink ls k v).lookup k = some v := by
  induction ls with
  | nil => simp [upsertLink]
  | cons a rest ih =>
    obtain ⟨ak, aw⟩ := a
    by_cases h : ak = k
    · subst h
      simp [upsertLink, List.lookup]
    · have hk : (k == ak) = false := by
        simp only [beq_eq_false_iff_ne, ne_eq]
        exact fun hh => h hh.symm
      simp [upsertLink, h, List.lookup, ih, hk]

/-- No event of the page handler is a queue push (its side effects are
per-element queueCollectionElement calls). -/
theorem page_events_no_push (pageNo : Nat) (x : Request) :
    ∀ e ∈ (Processor.page pageNo x).2.2, ∀ qs nm, e ≠ QEvent.pushQ qs nm := by
  intro e he qs nm
  simp only [Processor.page] at he
  obtain ⟨item, -, rfl⟩ := List.mem_map.mp he
  simp

/-- The page handler sets the self link of the returned document to
qualifier:type:page:n. -/
theorem page_selfLink (pageNo : Nat) (x : Request) (d : Document) (mdoc : Metadata)
    (hrel : x.context.bind (fun c => c.relation) = none)
    (hd : x.document = some d) (hmd : d.mdata = some mdoc) :
    ∃ m2, (Processor.page pageNo x).2.1.mdata = some m2 ∧
      m2.links.lookup "self" =
        some ⟨"resource", LinkTarget.one s!"{x.qualifierStr}:{x.typeStr}:page:{pageNo}"⟩ := by
  simp only [Processor.page, hrel, Request.linkResource, hd, Option.map_some', Document.setLink,
    hmd, Option.getD_some]
  exact ⟨_, rfl, lookup_upsertLink ..⟩

/-- C7: a collection response whose link header parses with last page L
yields exactly one push, of exactly L-1 new page requests (pages 2
through L) onto the soon queue, each carrying forward the current policy
and a context holding only the current qualifier with all transient
fields fresh; the current document is then processed inline as page 1
(its self link reads qualifier:type:page:1). -/
theorem collection_pages_c7 (parseLastPage : String → Nat) (r : Request) (lh : String) (L : Nat)
    (hresp : r.response.bind (fun resp => resp.headers.link) = some lh)
    (hL : parseLastPage lh = L) :
    ∃ reqs rest,
      (Processor.collection parseLastPage r).2.2 = QEvent.pushQ reqs "soon" :: rest ∧
      (∀ e ∈ rest, ∀ qs nm, e ≠ QEvent.pushQ qs nm) ∧
      reqs.length = L - 1 ∧
      (∀ i, (hi : i < reqs.length) →
        reqs[i].rtype = r.rtype ∧
        reqs[i].url = some (r.url.getD "undefined" ++ s!"?page={2 + i}&per_page=100") ∧
        reqs[i].policy = r.policy ∧
        reqs[i].context =
          some { qualifier := r.context.bind (fun c => c.qualifier), relation := none } ∧
        reqs[i].lock = none ∧ reqs[i].promises = 0 ∧ reqs[i].attemptCount = none) ∧
      (r.context.bind (fun c => c.relation) = none →
        ∀ d mdoc, r.document = some d → d.mdata = some mdoc →
          ∃ m2, (Processor.collection parseLastPage r).2.1.mdata = some m2 ∧
            m2.links.lookup "self" =
              some ⟨"resource", LinkTarget.one s!"{r.qualifierStr}:{r.typeStr}:page:{(1 : Nat)}"⟩) := by
  subst hL
  refine ⟨(List.range' 2 (parseLastPage lh - 1)).map (fun i =>
      { Request.create r.rtype (some (r.url.getD "undefined" ++ s!"?page={i}&per_page=100")) none
        with
        policy := r.policy,
        context := some { qualifier := r.context.bind (fun c => c.qualifier), relation := none } }),
    (Processor.page 1 r.track).2.2, ?_, ?_, ?_, ?_, ?_⟩
  · simp [Processor.collection, hresp]
  · exact page_events_no_push 1 r.track
  · simp
  · intro i hi
    simp [List.getElem_map, List.getElem_range', Request.create, Nat.one_mul]
  · intro hrel d mdoc hd hmd
    have heq : (Processor.collection parseLastPage r).2.1 = (Processor.page 1 r.track).2.1 := by
      simp [Processor.collection, hresp]
    rw [heq]
    exact page_selfLink 1 r.track d mdoc hrel hd hmd

/-- C7 witness: a link header parsing with last page 7 yields one push of
six page requests onto the soon queue. -/
theorem collection_pages_c7_witness :
    (({ response := some { headers := { link := some "lnk" } },
        url := some "https://api.example.com/repos/acme/widget/issues" } : Request).response.bind
      (fun resp => resp.headers.link) = some "lnk") ∧
    ∃ reqs rest,
      (Processor.collection (fun _ => 7)
        ({ response := some { headers := { link := some "lnk" } },
           url := some "https://api.example.com/repos/acme/widget/issues" } : Request)).2.2 =
        QEvent.pushQ reqs "soon" :: rest ∧ reqs.length = 6 := by
  refine ⟨rfl, ?_⟩
  obtain ⟨reqs, rest, h1, -, h3, -, -⟩ := collection_pages_c7 (fun _ => 7)
    ({ response := some { headers := { link := some "lnk" } },
       url := some "https://api.example.com/repos/acme/widget/issues" } : Request) "lnk" 7 rfl rfl
  exact ⟨reqs, rest, h1, h3⟩

/-- The requeue step only issues repush or pushDead calls, never a queue
ack or abandon. -/
theorem requeue_events_no_ack (r : Request) :
    ∀ e ∈ (Crawler.requeue r).2, e.isAck = false := by
  intro e he
  by_cases h : 5 < r.attemptCount.getD 0 + 1
  · simp [Crawler.requeue, Crawler.queueDead, h] at he
    subst he
    rfl
  · simp [Crawler.requeue, h] at he
    subst he
    rfl

/-- With a configured lock service and a held lock, _releaseLock issues
exactly the unlock call. -/
theorem releaseLock_events (c : CrawlerCfg) (r : Request)
    (hl : c.hasLocker = true) (hlock : r.lock.isSome = true) :
    (Crawler.releaseLock c r).2 = [QEvent.unlock] := by
  have hn : r.lock.isNone = false := by
    cases hx : r.lock with
    | none => rw [hx] at hlock; simp at hlock
    | some a => simp [hx]
  simp [Crawler.releaseLock, hn, hl]

/-- The requeue step does not touch the lock field. -/
theorem requeue_lock_eq (r : Request) : (Crawler.requeue r).1.lock = r.lock := by
  by_cases h : 5 < r.attemptCount.getD 0 + 1 <;>
    simp [Crawler.requeue, Request.addMeta, h]

/-- C1: for a lock-holding request under a configured lock service, in
_completeRequest the lock release precedes every queue ack or abandon on
both paths; on the requeue path (forced, or marked requeue with a url)
_requeue runs first and, whether or not its queue operation fails, the
release comes before the ack (requeue success) or the abandon (requeue
failure); on the happy path with fulfilled promises the release comes
before the ack (release itself always fulfills, so the abandon alternate
is not taken); and a promise rejection falls through to the requeue path
with forceRequeue set. -/
theorem completeRequest_order_c1 (c : CrawlerCfg) (o : Crawler.CompleteOracle) (r : Request)
    (fr : Bool) (hl : c.hasLocker = true) (hlock : r.lock.isSome = true) :
    (∃ pre post, Crawler.completeRequest c o r fr = pre ++ QEvent.unlock :: post ∧
      ∀ e ∈ pre, e.isAck = false) ∧
    (fr = true ∨ (r.shouldRequeue && truthy r.url) = true →
      Crawler.completeRequest c o r fr =
        (Crawler.requeue r).2 ++ QEvent.unlock ::
          (if o.queueOpOk then [QEvent.doneQ] else [QEvent.abandonQ])) ∧
    (fr = false → (r.shouldRequeue && truthy r.url) = false → o.promisesOk = true →
      Crawler.completeRequest c o r fr = [QEvent.unlock, QEvent.doneQ]) ∧
    (fr = false → (r.shouldRequeue && truthy r.url) = false → o.promisesOk = false →
      Crawler.completeRequest c o r fr = Crawler.completeRequest c o r true) := by
  have hrel1 : (Crawler.releaseLock c (Crawler.requeue r).1).2 = [QEvent.unlock] := by
    apply releaseLock_events c _ hl
    rw [requeue_lock_eq]
    exact hlock
  have hpath : Crawler.completeRequeuePath c o r =
      (Crawler.requeue r).2 ++ QEvent.unlock ::
        (if o.queueOpOk then [QEvent.doneQ] else [QEvent.abandonQ]) := by
    simp [Crawler.completeRequeuePath, hrel1]
  have hrel0 : (Crawler.releaseLock c r).2 = [QEvent.unlock] := releaseLock_events c r hl hlock
  refine ⟨?_, ?_, ?_, ?_⟩
  · have main : ∀ tr : List QEvent,
        (tr = (Crawler.requeue r).2 ++ QEvent.unlock ::
            (if o.queueOpOk then [QEvent.doneQ] else [QEvent.abandonQ]) ∨
          tr = [QEvent.unlock, QEvent.doneQ]) →
        ∃ pre post, tr = pre ++ QEvent.unlock :: post ∧ ∀ e ∈ pre, e.isAck = false := by
      rintro tr (rfl | rfl)
      · exact ⟨(Crawler.requeue r).2, _, rfl, requeue_events_no_ack r⟩
      · exact ⟨[], [QEvent.doneQ], rfl, by simp⟩
    apply main
    cases fr with
    | false =>
      by_cases hcond : (r.shouldRequeue && truthy r.url) = true
      · left
        simp [Crawler.completeRequest, hcond, hpath]
      · by_cases hp : o.promisesOk
        · right
          simp [Crawler.completeRequest, hcond, hp, hrel0]
        · left
          simp [Crawler.completeRequest, hcond, hp, hpath]
    | true =>
      left
      simp [Crawler.completeRequest, hpath]
  · intro hcond
    cases fr with
    | false =>
      rcases hcond with hcond | hcond
      · exact absurd hcond (by simp)
      · simp [Crawler.completeRequest, hcond, hpath]
    | true =>
      simp [Crawler.completeRequest, hpath]
  · intro hfr hcond hp
    subst hfr
    simp [Crawler.completeRequest, hcond, hp, hrel0]
  · intro hfr hcond hp
    subst hfr
    simp [Crawler.completeRequest, hcond, hp, hpath]

/-- C1 witness: a lock-holding request with fulfilled promises releases
the lock and then acks. -/
theorem completeRequest_order_c1_witness :
    (({} : CrawlerCfg).hasLocker = true ∧
      (({ lock := some "lease" } : Request).lock).isSome = true) ∧
    Crawler.completeRequest {} { queueOpOk := true, promisesOk := true }
      ({ lock := some "lease" } : Request) false = [QEvent.unlock, QEvent.doneQ] :=
  ⟨⟨rfl, rfl⟩,
    (completeRequest_order_c1 {} { queueOpOk := true, promisesOk := true }
      ({ lock := some "lease" } : Request) false rfl rfl).2.2.1 rfl rfl rfl⟩

end Ghcrawler
